import Mathlib

/-!
Shallow embedding of the `image2url` upload client (`src/index.js`, the
compiled library whose declaration file is `index.d.ts`).

Buffers are modelled as `List Nat` (byte values), JS strings as Lean
`String`, and JS `undefined`-able values as `Option`.  The two sources of
nondeterminism used by `uploadBuffer` (`Date.now()`, `randomUUID()`,
`new Date().toISOString()`) and the `ETag` of the storage response are passed in
explicitly through an `Env` record.  The single remote `send` of a
`PutObjectCommand` is modelled by returning the list of commands sent
alongside the `Except` result, so "no remote call is made" is the statement
that this trace is `[]`.
-/

/-- JS truthiness for an optional string: `undefined` and `""` are falsy. -/
def jsTruthy : Option String → Bool
  | none => false
  | some s => s ≠ ""

/-- The ECMAScript whitespace set recognised by `String.prototype.trim`. -/
def jsWhitespace (c : Char) : Bool :=
  c == ' ' || c == '\t' || c == '\n' || c == '\r' ||
  c.toNat == 11 || c.toNat == 12 || c.toNat == 0xa0 || c.toNat == 0x1680 ||
  (decide (0x2000 ≤ c.toNat) && decide (c.toNat ≤ 0x200a)) ||
  c.toNat == 0x2028 || c.toNat == 0x2029 || c.toNat == 0x202f ||
  c.toNat == 0x205f || c.toNat == 0x3000 || c.toNat == 0xfeff

/-- JS `value.trim()`. -/
def jsTrim (s : String) : String :=
  ⟨((s.data.dropWhile jsWhitespace).reverse.dropWhile jsWhitespace).reverse⟩

/-- `trimTrailingSlash` from the source: `value.replace(/\/+$/, '')`. -/
def trimTrailingSlash (value : String) : String :=
  ⟨(value.data.reverse.dropWhile (· == '/')).reverse⟩

/-- `trimSlashes` from the source: strip leading and trailing `/` runs. -/
def trimSlashes (value : String) : String :=
  ⟨((value.data.dropWhile (· == '/')).reverse.dropWhile (· == '/')).reverse⟩

/-- `key.replace(/^\/+/, '')`, the key normalisation used by `buildPublicUrl`. -/
def stripLeadingSlashes (key : String) : String :=
  ⟨key.data.dropWhile (· == '/')⟩

/-- `normalizeKey` from the source:
`key.replace(/^\/+/, '').replace(/\\/g, '/')` (strip leading slashes, then
turn every backslash into a slash). -/
def normalizeKey (key : String) : String :=
  ⟨(key.data.dropWhile (· == '/')).map (fun c => if c == '\\' then '/' else c)⟩

/-- JS `toLowerCase()` on the character list (the built-in `String.toLower`
is defined by well-founded recursion over byte positions and does not reduce
inside the kernel).  `Char.toLower` only lowers ASCII letters; of the JS
Unicode special cases only U+212A lowers into ASCII, and no lookup key here
contains a `k`, so table lookups are unaffected. -/
def strToLower (s : String) : String :=
  ⟨s.data.map Char.toLower⟩

/-- JS `str.replace('.', '')` with a plain-string pattern removes only the
first occurrence. -/
def removeFirstDot : List Char → List Char
  | [] => []
  | c :: cs => if c == '.' then cs else c :: removeFirstDot cs

/-- Scanner state of the Node function `path.posix.extname` (ported from
`lib/path.js`; the scan runs from the end of the string towards the
front). -/
structure ExtScan where
  startDot : Option Nat
  startPart : Nat
  endIdx : Option Nat
  matchedSlash : Bool
  preDotState : Int
  deriving Repr, DecidableEq

/-- One non-slash step of the `extname` scanner at index `i`. -/
def extScanStep (c : Char) (i : Nat) (st : ExtScan) : ExtScan :=
  let st := if st.endIdx = none then
    { st with matchedSlash := false, endIdx := some (i + 1) } else st
  if c == '.' then
    match st.startDot with
    | none => { st with startDot := some i }
    | some _ => if st.preDotState ≠ 1 then { st with preDotState := 1 } else st
  else if st.startDot.isSome then { st with preDotState := -1 }
  else st

/-- The backwards scan of `path.posix.extname`; the first argument of the
recursion is `i + 1` where `i` is the index being examined, so `0` means the
scan is finished.  A `/` seen after a non-slash character stops the scan and
records `startPart`. -/
def extScanGo (cs : Array Char) : Nat → ExtScan → ExtScan
  | 0, st => st
  | i + 1, st =>
    let c := cs.getD i ' '
    if c == '/' then
      if ¬ st.matchedSlash then { st with startPart := i + 1 }
      else extScanGo cs i st
    else extScanGo cs i (extScanStep c i st)

/-- The Node function `path.posix.extname`, as called by `guessContentType` and
`guessExtension`. -/
def extname (p : String) : String :=
  let cs := p.data.toArray
  let st := extScanGo cs cs.size
    { startDot := none, startPart := 0, endIdx := none,
      matchedSlash := true, preDotState := 0 }
  match st.startDot, st.endIdx with
  | some sd, some e =>
    if st.preDotState = 0 ∨
        (st.preDotState = 1 ∧ sd + 1 = e ∧ sd = st.startPart + 1) then ""
    else ⟨(p.data.drop sd).take (e - sd)⟩
  | _, _ => ""

/-- The Node function `path.posix.basename` (no extension argument), as called by
`uploadFile`: drop trailing slashes, then keep the last `/`-free component. -/
def basename (p : String) : String :=
  let t := p.data.reverse.dropWhile (· == '/')
  ⟨(t.takeWhile (· ≠ '/')).reverse⟩

/-- `MIME_BY_EXT` from the source. -/
def MIME_BY_EXT : List (String × String) :=
  [(".jpg", "image/jpeg"), (".jpeg", "image/jpeg"), (".png", "image/png"),
   (".gif", "image/gif"), (".webp", "image/webp"), (".bmp", "image/bmp"),
   (".svg", "image/svg+xml"), (".tif", "image/tiff"), (".tiff", "image/tiff"),
   (".ico", "image/x-icon")]

/-- `EXT_BY_MIME` from the source. -/
def EXT_BY_MIME : List (String × String) :=
  [("image/jpeg", "jpg"), ("image/png", "png"), ("image/gif", "gif"),
   ("image/webp", "webp"), ("image/bmp", "bmp"), ("image/svg+xml", "svg"),
   ("image/tiff", "tiff"), ("image/x-icon", "ico")]

/-- JS object-literal lookup `table[key]`, yielding `undefined` on a miss. -/
def lookupTable (t : List (String × String)) (k : String) : Option String :=
  (t.find? (fun p => p.1 == k)).map (fun p => p.2)

/-- `guessContentType` from the source: `undefined` for a falsy name,
otherwise `MIME_BY_EXT[path.extname(originalName).toLowerCase()]`. -/
def guessContentType (originalName : Option String) : Option String :=
  if jsTruthy originalName then
    lookupTable MIME_BY_EXT (strToLower (extname (originalName.getD "")))
  else none

/-- `guessExtension` from the source: the extension of the filename with its
first dot removed and lowercased when non-empty, otherwise
`EXT_BY_MIME[contentType]`. -/
def guessExtension (originalName : Option String) (contentType : String) :
    Option String :=
  let nameExt : String :=
    if jsTruthy originalName then
      strToLower (String.mk (removeFirstDot (extname (originalName.getD "")).data))
    else ""
  if nameExt ≠ "" then some nameExt
  else lookupTable EXT_BY_MIME contentType

/-- `DEFAULT_MAX_SIZE = 2 * 1024 * 1024` (2 MB). -/
def DEFAULT_MAX_SIZE : Nat := 2 * 1024 * 1024

/-- `DEFAULT_CACHE_CONTROL = 'public, max-age=31536000'`. -/
def DEFAULT_CACHE_CONTROL : String := "public, max-age=31536000"

/-- The `Image2UrlConfig` input record (optional fields are `Option`). -/
structure Image2UrlConfig where
  accountId : String
  accessKeyId : String
  secretAccessKey : String
  bucket : String
  publicUrl : String
  keyPrefix : Option String := none
  maxSizeBytes : Option Nat := none
  cacheControl : Option String := none
  deriving Repr, DecidableEq

/-- The `UploadOptions` record.  `metadata` is a JS object, modelled as an
association list with distinct keys. -/
structure UploadOptions where
  key : Option String := none
  originalName : Option String := none
  contentType : Option String := none
  metadata : Option (List (String × String)) := none
  deriving Repr, DecidableEq

/-- The `UploadResult` record returned by `uploadBuffer`. -/
structure UploadResult where
  url : String
  key : String
  bucket : String
  size : Nat
  type : String
  etag : Option String
  deriving Repr, DecidableEq

/-- The fields of the `PutObjectCommand` built by `uploadBuffer`. -/
structure PutObjectCommand where
  Bucket : String
  Key : String
  Body : List Nat
  ContentType : String
  ContentLength : Nat
  CacheControl : String
  Metadata : List (String × String)
  deriving Repr, DecidableEq

/-- The state of a constructed `Image2UrlClient`.  The source stores the
trimmed key prefix in a private field named `prefix`; it is called
`keyPrefix` here.  The `S3Client` handle is not modelled beyond the
credential checks done in the constructor. -/
structure Image2UrlClient where
  bucket : String
  publicUrl : String
  keyPrefix : String
  maxSize : Nat
  cacheControl : String
  deriving Repr, DecidableEq

/-- The ambient values read during one upload: `Date.now()`, `randomUUID()`,
`new Date().toISOString()` (used by `buildMetadata`), and the `ETag` of the
storage response. -/
structure Env where
  now : Nat
  uuid : String
  uploadTime : String
  etag : Option String
  deriving Repr, DecidableEq

/-- `requireValue` from the source: reject a falsy (empty) field. -/
def requireValue (value : String) (field : String) : Except String String :=
  if value = "" then
    Except.error ("Missing " ++ field ++ " in Image2Url configuration.")
  else Except.ok value

/-- The `Image2UrlClient` constructor, in source order: `bucket`,
`publicUrl` (trailing slashes trimmed), prefix (`config.keyPrefix ?? 'images'`,
slashes trimmed), `maxSizeBytes ?? DEFAULT_MAX_SIZE`,
`cacheControl ?? DEFAULT_CACHE_CONTROL`, then the three credentials. -/
def mkClient (config : Image2UrlConfig) : Except String Image2UrlClient := do
  let bucket ← requireValue config.bucket "bucket"
  let publicUrl0 ← requireValue config.publicUrl "publicUrl"
  let publicUrl := trimTrailingSlash publicUrl0
  let pfx := trimSlashes (config.keyPrefix.getD "images")
  let maxSize := config.maxSizeBytes.getD DEFAULT_MAX_SIZE
  let cacheControl := config.cacheControl.getD DEFAULT_CACHE_CONTROL
  let _ ← requireValue config.accountId "accountId"
  let _ ← requireValue config.accessKeyId "accessKeyId"
  let _ ← requireValue config.secretAccessKey "secretAccessKey"
  pure { bucket := bucket, publicUrl := publicUrl, keyPrefix := pfx,
         maxSize := maxSize, cacheControl := cacheControl }

/-- The empty-payload error message. -/
def emptyFileMsg : String := "Cannot upload an empty file."

/-- Model of `(maxSize / (1024 * 1024)).toFixed(1)`: the limit in MiB with
one decimal digit, rounding half up. -/
def toFixed1MB (maxSize : Nat) : String :=
  let tenths := (maxSize * 10 + 524288) / 1048576
  toString (tenths / 10) ++ "." ++ toString (tenths % 10)

/-- The size-limit error message thrown by `uploadBuffer`. -/
def sizeLimitMsg (maxSize : Nat) : String :=
  "File is larger than the allowed limit (" ++ toFixed1MB maxSize ++ " MB)."

/-- The message of the empty-content-type branch of `ensureImageContentType`. -/
def unableMsg : String :=
  "Unable to determine content type. Provide a contentType or filename with an image extension."

/-- JS `s.startsWith(pfx)`, computed on the character lists (the built-in
`String.startsWith` does not reduce inside the kernel). -/
def strStartsWith (s pfx : String) : Bool :=
  s.data.take pfx.data.length == pfx.data

/-- The message of the non-image branch of `ensureImageContentType`. -/
def onlyImageMsg (contentType : String) : String :=
  "Only image uploads are allowed. Received content type: " ++ contentType

/-- `ensureImageContentType` from the source.  Its argument is always a
string at the call site (the `??` chain in `uploadBuffer`), so the JS
falsiness test `!contentType` is the empty-string test. -/
def ensureImageContentType (contentType : String) : Except String String :=
  if contentType = "" then Except.error unableMsg
  else if ¬ strStartsWith contentType "image/" then
    Except.error (onlyImageMsg contentType)
  else Except.ok contentType

/-- JS object assignment `m[k] = v`: update the value in place when the key
exists, otherwise append the pair at the end.  (JS objects have distinct
keys, so updating every occurrence of `k` agrees with object semantics.) -/
def setEntry : List (String × String) → String → String → List (String × String)
  | [], k, v => [(k, v)]
  | p :: rest, k, v =>
    if p.1 == k then (k, v) :: rest
    else p :: setEntry rest k v

/-- JS object read `m[k]` on the association-list model. -/
def lookupEntry (m : List (String × String)) (k : String) : Option String :=
  (m.find? (fun p => p.1 == k)).map (fun p => p.2)

/-- `buildMetadata` from the source: copy the caller map, set
`original-name` when the name is truthy, then set `upload-time`. -/
def buildMetadata (metadata : Option (List (String × String)))
    (originalName : Option String) (uploadTime : String) :
    List (String × String) :=
  let result := metadata.getD []
  let result :=
    if jsTruthy originalName then
      setEntry result "original-name" (originalName.getD "")
    else result
  setEntry result "upload-time" uploadTime

/-- `buildPublicUrl` from the source. -/
def buildPublicUrl (base : String) (key : String) : String :=
  trimTrailingSlash base ++ "/" ++ stripLeadingSlashes key

/-- `toBuffer` from the source: all three accepted JS types are byte
sequences, so on the byte-list model it is the identity. -/
def toBuffer (data : List Nat) : List Nat := data

/-- The resolved content type of `uploadBuffer` (line 123):
`options?.contentType ?? guessContentType(options?.originalName) ?? 'image/jpeg'`. -/
def resolvedContentType (opts : UploadOptions) : String :=
  ((opts.contentType).orElse (fun _ => guessContentType opts.originalName)).getD
    "image/jpeg"

/-- `Image2UrlClient.buildKey` from the source. -/
def Image2UrlClient.buildKey (c : Image2UrlClient) (env : Env)
    (key : Option String) (originalName : Option String)
    (contentType : String) : String :=
  if jsTruthy key ∧ 0 < (jsTrim (key.getD "")).length then
    normalizeKey (key.getD "")
  else
    let extension := (guessExtension originalName contentType).getD "jpg"
    let filename := toString env.now ++ "-" ++ env.uuid ++ "." ++ extension
    if c.keyPrefix ≠ "" then c.keyPrefix ++ "/" ++ filename else filename

/-- The tail of `uploadBuffer` after the empty and size guards (split out so
that "the size check passes" is expressible as equality with this
continuation): resolve and validate the content type, build the key,
metadata and `PutObjectCommand`, send it, and assemble the result. -/
def Image2UrlClient.uploadBufferChecked (c : Image2UrlClient) (env : Env)
    (buffer : List Nat) (opts : UploadOptions) :
    Except String UploadResult × List PutObjectCommand :=
  match ensureImageContentType (resolvedContentType opts) with
  | Except.error e => (Except.error e, [])
  | Except.ok contentType =>
    let key := c.buildKey env opts.key opts.originalName contentType
    let metadata := buildMetadata opts.metadata opts.originalName env.uploadTime
    let cmd : PutObjectCommand :=
      { Bucket := c.bucket, Key := key, Body := buffer,
        ContentType := contentType, ContentLength := buffer.length,
        CacheControl := c.cacheControl, Metadata := metadata }
    (Except.ok
      { url := buildPublicUrl c.publicUrl key, key := key, bucket := c.bucket,
        size := buffer.length, type := contentType, etag := env.etag },
     [cmd])

/-- `Image2UrlClient.uploadBuffer` from the source.  The second component of
the result is the list of `PutObjectCommand`s sent to the remote store. -/
def Image2UrlClient.uploadBuffer (c : Image2UrlClient) (env : Env)
    (data : List Nat) (opts : UploadOptions) :
    Except String UploadResult × List PutObjectCommand :=
  let buffer := toBuffer data
  if buffer.length = 0 then (Except.error emptyFileMsg, [])
  else if buffer.length > c.maxSize then
    (Except.error (sizeLimitMsg c.maxSize), [])
  else c.uploadBufferChecked env buffer opts

/-- The 6-bit value of one base64-alphabet character; the Node decoder maps
both the standard and the url-safe alphabet.  A character outside the
alphabets has no value (in the decoder it is either skipped or, for `=`,
ends the decode). -/
def base64Val (c : Char) : Option Nat :=
  if 'A' ≤ c ∧ c ≤ 'Z' then some (c.toNat - 65)
  else if 'a' ≤ c ∧ c ≤ 'z' then some (c.toNat - 97 + 26)
  else if '0' ≤ c ∧ c ≤ '9' then some (c.toNat - 48 + 52)
  else if c == '+' ∨ c == '-' then some 62
  else if c == '/' ∨ c == '_' then some 63
  else none

/-- Reassemble bytes from a list of 6-bit values: full groups of four give
three bytes, a trailing group of three gives two, of two gives one, and a
single leftover value gives nothing. -/
def sextetsToBytes : List Nat → List Nat
  | a :: b :: c :: d :: rest =>
    (a * 4 + b / 16) :: ((b % 16) * 16 + c / 4) :: ((c % 4) * 64 + d) ::
      sextetsToBytes rest
  | [a, b, c] => [a * 4 + b / 16, (b % 16) * 16 + c / 4]
  | [a, b] => [a * 4 + b / 16]
  | _ => []

/-- The stream of 6-bit values the Node decoder reads from a base64 string:
characters outside the base64 alphabets are skipped, except that the first
`=` stops the decode (`base64_decode_group_slow` in node `src/base64-inl.h`
returns at `=` with the comment Stop decoding). -/
def jsBase64Sextets : List Char → List Nat
  | [] => []
  | c :: cs =>
    if c == '=' then []
    else
      match base64Val c with
      | some v => v :: jsBase64Sextets cs
      | none => jsBase64Sextets cs

/-- The lenient Node `Buffer.from(str, base64)` decoder: pack the sextet
stream into bytes.  No input is rejected; an input whose sextet stream is
empty decodes to the empty buffer. -/
def jsBase64Decode (s : String) : List Nat :=
  sextetsToBytes (jsBase64Sextets s.data)

/-- The line terminators that JS regex `.` does not match. -/
def isLineTerminator (c : Char) : Bool :=
  c == '\n' || c == '\r' || c.toNat == 0x2028 || c.toNat == 0x2029

/-- Split a character list at its first `;`, when there is one. -/
def splitAtSemicolon : List Char → Option (List Char × List Char)
  | [] => none
  | c :: cs =>
    if c == ';' then some ([], cs)
    else (splitAtSemicolon cs).map (fun pr => (c :: pr.1, pr.2))

/-- The match of `/^data:([^;]+);base64,(.+)$/` against the trimmed input:
`data:` prefix, a non-empty mime part before the first `;`, the literal
`base64,`, and a non-empty remainder free of line terminators.  Returns the
two capture groups. -/
def matchDataUri (value : String) : Option (String × String) :=
  let cs := value.data
  if cs.take 5 = "data:".data then
    match splitAtSemicolon (cs.drop 5) with
    | some (mime, rest) =>
      if mime ≠ [] ∧ rest.take 7 = "base64,".data then
        let enc := rest.drop 7
        if enc ≠ [] ∧ enc.all (fun c => ¬ isLineTerminator c) then
          some (⟨mime⟩, ⟨enc⟩)
        else none
      else none
    | none => none
  else none

/-- The record built by `decodeBase64`. -/
structure DecodedBase64 where
  buffer : List Nat
  contentType : Option String := none
  originalName : Option String := none
  deriving Repr, DecidableEq

/-- `decodeBase64` from the source: trim, try the data-URI form (which also
yields a content type and a synthetic `upload.<ext>` name), otherwise decode
the whole trimmed value as bare base64. -/
def decodeBase64 (input : String) : DecodedBase64 :=
  let value := jsTrim input
  match matchDataUri value with
  | some (mime, encoded) =>
    { buffer := jsBase64Decode encoded, contentType := some mime,
      originalName :=
        some ("upload." ++ (lookupTable EXT_BY_MIME mime).getD "jpg") }
  | none => { buffer := jsBase64Decode value }

/-- `Image2UrlClient.uploadBase64` from the source: decode, then delegate to
`uploadBuffer` with the decoded content type and name as `??` fallbacks. -/
def Image2UrlClient.uploadBase64 (c : Image2UrlClient) (env : Env)
    (base64 : String) (opts : UploadOptions) :
    Except String UploadResult × List PutObjectCommand :=
  let decoded := decodeBase64 base64
  c.uploadBuffer env decoded.buffer
    { opts with
      originalName := (opts.originalName).orElse (fun _ => decoded.originalName),
      contentType := (opts.contentType).orElse (fun _ => decoded.contentType) }

/-- `Image2UrlClient.uploadFile` from the source, with the file system
abstracted: `isFile` is the `stats.isFile()` answer for `filePath` and
`fileBytes` is the content `fs.readFile` returns.  The original name falls
back to `path.basename(filePath)` and the content type to
`guessContentType(originalName)`. -/
def Image2UrlClient.uploadFile (c : Image2UrlClient) (env : Env)
    (filePath : String) (isFile : Bool) (fileBytes : List Nat)
    (opts : UploadOptions) :
    Except String UploadResult × List PutObjectCommand :=
  if ¬ isFile then (Except.error ("Path is not a file: " ++ filePath), [])
  else
    let originalName := (opts.originalName).getD (basename filePath)
    let contentType :=
      (opts.contentType).orElse (fun _ => guessContentType (some originalName))
    c.uploadBuffer env fileBytes
      { opts with originalName := some originalName, contentType := contentType }

/-- Modelled from the spec: "undecodable base64" read as failing strict
RFC 4648 base64 validity (length a multiple of four, alphabet characters
with at most two `=` of padding at the end).  The source itself never
checks this; the definition exists only to state the premise of claim C7. -/
def specValidBase64 (s : String) : Bool :=
  let cs := s.data
  let rev := cs.reverse
  let pad := (rev.takeWhile (· == '=')).length
  let body := (rev.dropWhile (· == '=')).reverse
  decide (cs.length % 4 = 0) && decide (pad ≤ 2) &&
    body.all (fun c => (base64Val c).isSome && c ≠ '-' && c ≠ '_') &&
    decide (cs ≠ [])

/-! ## Fixtures used by witnesses and counterexamples -/

/-- A concrete configuration with every credential present. -/
def cfgEx : Image2UrlConfig :=
  { accountId := "acct", accessKeyId := "ak", secretAccessKey := "sk",
    bucket := "pics", publicUrl := "https://cdn.example.com/" }

/-- The client `mkClient cfgEx` constructs. -/
def cEx : Image2UrlClient :=
  { bucket := "pics", publicUrl := "https://cdn.example.com",
    keyPrefix := "images", maxSize := DEFAULT_MAX_SIZE,
    cacheControl := DEFAULT_CACHE_CONTROL }

/-- A client with a 4-byte size ceiling. -/
def cSmall : Image2UrlClient := { cEx with maxSize := 4 }

/-- A concrete ambient environment for one upload. -/
def envEx : Env :=
  { now := 1700, uuid := "u1", uploadTime := "2024-01-01T00:00:00.000Z",
    etag := some "etag-1" }

/-- Empty options. -/
def optsNone : UploadOptions := {}

/-- Options supplying only an explicit image content type. -/
def optsPng : UploadOptions := { contentType := some "image/png" }

/-- Options supplying a non-image content type. -/
def optsPdf : UploadOptions := { contentType := some "application/pdf" }

/-! ## Helper lemmas -/

theorem dropWhile_idem (p : Char → Bool) (l : List Char) :
    List.dropWhile p (List.dropWhile p l) = List.dropWhile p l := by
  induction l with
  | nil => rfl
  | cons c cs ih =>
    by_cases h : p c = true
    · simp [List.dropWhile_cons, h, ih]
    · simp [List.dropWhile_cons, h]

theorem trimTrailingSlash_idem (s : String) :
    trimTrailingSlash (trimTrailingSlash s) = trimTrailingSlash s := by
  unfold trimTrailingSlash
  simp [dropWhile_idem]

theorem ensureImageContentType_ok {ct ct' : String}
    (h : ensureImageContentType ct = Except.ok ct') :
    ct' = ct ∧ strStartsWith ct "image/" = true := by
  unfold ensureImageContentType at h
  by_cases h0 : ct = ""
  · simp [h0] at h
  · rw [if_neg h0] at h
    by_cases h1 : strStartsWith ct "image/" = true
    · rw [if_neg (by simp [h1])] at h
      exact ⟨(Except.ok.inj h).symm, h1⟩
    · rw [if_pos (by simp [h1])] at h
      exact absurd h (by simp)

theorem ensureImageContentType_of_startsWith {ct : String}
    (h : strStartsWith ct "image/" = true) :
    ensureImageContentType ct = Except.ok ct := by
  have h0 : ct ≠ "" := by
    intro he
    rw [he] at h
    exact absurd h (by decide)
  unfold ensureImageContentType
  rw [if_neg h0, if_neg (by simp [h])]

theorem ensureImageContentType_error_of_not {ct : String}
    (h : ¬ strStartsWith ct "image/" = true) :
    ∃ e, ensureImageContentType ct = Except.error e := by
  unfold ensureImageContentType
  by_cases h0 : ct = ""
  · exact ⟨unableMsg, by rw [if_pos h0]⟩
  · exact ⟨onlyImageMsg ct, by rw [if_neg h0, if_pos (by simp [h])]⟩

theorem mkClient_ok {cfg : Image2UrlConfig} {c : Image2UrlClient}
    (h : mkClient cfg = Except.ok c) :
    cfg.bucket ≠ "" ∧ cfg.publicUrl ≠ "" ∧
    c = { bucket := cfg.bucket, publicUrl := trimTrailingSlash cfg.publicUrl,
          keyPrefix := trimSlashes (cfg.keyPrefix.getD "images"),
          maxSize := cfg.maxSizeBytes.getD DEFAULT_MAX_SIZE,
          cacheControl := cfg.cacheControl.getD DEFAULT_CACHE_CONTROL } := by
  unfold mkClient requireValue at h
  by_cases hb : cfg.bucket = ""
  · simp [hb, bind, Except.bind] at h
  · by_cases hp : cfg.publicUrl = ""
    · simp [hb, hp, bind, Except.bind] at h
    · by_cases ha : cfg.accountId = ""
      · simp [hb, hp, ha, bind, Except.bind] at h
      · by_cases hk : cfg.accessKeyId = ""
        · simp [hb, hp, ha, hk, bind, Except.bind] at h
        · by_cases hs2 : cfg.secretAccessKey = ""
          · simp [hb, hp, ha, hk, hs2, bind, Except.bind, pure, Except.pure] at h
          · simp [hb, hp, ha, hk, hs2, bind, Except.bind, pure, Except.pure] at h
            exact ⟨hb, hp, h.symm⟩

theorem lookupTable_mem {t : List (String × String)} {k m : String}
    (h : lookupTable t k = some m) : ∃ p, p ∈ t ∧ p.2 = m := by
  unfold lookupTable at h
  cases hf : t.find? (fun p => p.1 == k) with
  | none => rw [hf] at h; exact absurd h (by simp)
  | some p =>
    rw [hf] at h
    exact ⟨p, List.mem_of_find?_eq_some hf, by simpa using h⟩

theorem mime_values_ne_empty : ∀ p ∈ MIME_BY_EXT, p.2 ≠ "" := by decide

theorem guessContentType_ne_empty {o : Option String} {m : String}
    (h : guessContentType o = some m) : m ≠ "" := by
  unfold guessContentType at h
  by_cases ht : jsTruthy o = true
  · rw [if_pos ht] at h
    obtain ⟨p, hp, hv⟩ := lookupTable_mem h
    exact hv ▸ mime_values_ne_empty p hp
  · rw [if_neg ht] at h
    exact absurd h (by simp)

theorem uploadBuffer_ok_eq (c : Image2UrlClient) (env : Env) (data : List Nat)
    (opts : UploadOptions)
    (h0 : ¬ data.length = 0) (h1 : ¬ data.length > c.maxSize)
    (hs : strStartsWith (resolvedContentType opts) "image/" = true) :
    c.uploadBuffer env data opts =
      (Except.ok
        { url := buildPublicUrl c.publicUrl
            (c.buildKey env opts.key opts.originalName (resolvedContentType opts)),
          key := c.buildKey env opts.key opts.originalName
            (resolvedContentType opts),
          bucket := c.bucket, size := data.length,
          type := resolvedContentType opts, etag := env.etag },
       [{ Bucket := c.bucket,
          Key := c.buildKey env opts.key opts.originalName
            (resolvedContentType opts),
          Body := data, ContentType := resolvedContentType opts,
          ContentLength := data.length, CacheControl := c.cacheControl,
          Metadata := buildMetadata opts.metadata opts.originalName
            env.uploadTime }]) := by
  have hok := ensureImageContentType_of_startsWith hs
  unfold Image2UrlClient.uploadBuffer toBuffer
  rw [if_neg h0, if_neg (by simpa using h1)]
  unfold Image2UrlClient.uploadBufferChecked
  rw [hok]

theorem uploadBuffer_ok_inv {c : Image2UrlClient} {env : Env} {data : List Nat}
    {opts : UploadOptions} {r : UploadResult}
    (h : (c.uploadBuffer env data opts).fst = Except.ok r) :
    ¬ data.length = 0 ∧ ¬ data.length > c.maxSize ∧
    strStartsWith (resolvedContentType opts) "image/" = true := by
  by_cases h0 : data.length = 0
  · rw [show c.uploadBuffer env data opts = (Except.error emptyFileMsg, []) by
      unfold Image2UrlClient.uploadBuffer toBuffer; rw [if_pos h0]] at h
    exact absurd h (by simp)
  · by_cases h1 : data.length > c.maxSize
    · rw [show c.uploadBuffer env data opts =
          (Except.error (sizeLimitMsg c.maxSize), []) by
        unfold Image2UrlClient.uploadBuffer toBuffer
        rw [if_neg h0, if_pos (by simpa using h1)]] at h
      exact absurd h (by simp)
    · refine ⟨h0, h1, ?_⟩
      by_cases hs : strStartsWith (resolvedContentType opts) "image/" = true
      · exact hs
      · obtain ⟨e, he⟩ := ensureImageContentType_error_of_not hs
        rw [show c.uploadBuffer env data opts = (Except.error e, []) by
          unfold Image2UrlClient.uploadBuffer toBuffer
          rw [if_neg h0, if_neg (by simpa using h1)]
          unfold Image2UrlClient.uploadBufferChecked
          rw [he]] at h
        exact absurd h (by simp)

theorem uploadBuffer_ok_result {c : Image2UrlClient} {env : Env}
    {data : List Nat} {opts : UploadOptions} {r : UploadResult}
    (h : (c.uploadBuffer env data opts).fst = Except.ok r) :
    r = { url := buildPublicUrl c.publicUrl
            (c.buildKey env opts.key opts.originalName (resolvedContentType opts)),
          key := c.buildKey env opts.key opts.originalName
            (resolvedContentType opts),
          bucket := c.bucket, size := data.length,
          type := resolvedContentType opts, etag := env.etag } := by
  obtain ⟨h0, h1, hs⟩ := uploadBuffer_ok_inv h
  rw [uploadBuffer_ok_eq c env data opts h0 h1 hs] at h
  exact (Except.ok.inj h).symm

theorem lookupEntry_setEntry_self (m : List (String × String)) (k v : String) :
    lookupEntry (setEntry m k v) k = some v := by
  induction m with
  | nil => simp [setEntry, lookupEntry, List.find?]
  | cons p rest ih =>
    by_cases h : p.1 = k
    · simp [setEntry, h, lookupEntry, List.find?]
    · unfold setEntry
      rw [if_neg (by simpa using h)]
      unfold lookupEntry at ih ⊢
      rw [List.find?_cons_of_neg _ (by simpa using h)]
      exact ih

theorem lookupEntry_setEntry_ne (m : List (String × String)) (k v k0 : String)
    (hne : k ≠ k0) : lookupEntry (setEntry m k0 v) k = lookupEntry m k := by
  induction m with
  | nil =>
    unfold setEntry lookupEntry
    rw [List.find?_cons_of_neg _ (by simpa using fun he => hne he.symm)]
  | cons p rest ih =>
    by_cases h : p.1 = k0
    · unfold setEntry
      rw [if_pos (by simpa using h)]
      unfold lookupEntry
      rw [List.find?_cons_of_neg _ (by simpa using fun he => hne he.symm),
          List.find?_cons_of_neg _
            (by simp [h]; exact fun he => hne he.symm)]
    · unfold setEntry
      rw [if_neg (by simpa using h)]
      by_cases hpk : p.1 = k
      · unfold lookupEntry
        rw [List.find?_cons_of_pos _ (by simpa using hpk),
            List.find?_cons_of_pos _ (by simpa using hpk)]
      · unfold lookupEntry at ih ⊢
        rw [List.find?_cons_of_neg _ (by simpa using hpk),
            List.find?_cons_of_neg _ (by simpa using hpk)]
        exact ih

theorem mem_setEntry_of_ne {m : List (String × String)} {k v k0 v0 : String}
    (hne : k ≠ k0) (h : (k, v) ∈ m) : (k, v) ∈ setEntry m k0 v0 := by
  induction m with
  | nil => exact absurd h (by simp)
  | cons p rest ih =>
    rcases List.mem_cons.mp h with hh | ht
    · unfold setEntry
      by_cases hp : p.1 = k0
      · exact absurd ((congrArg Prod.fst hh).trans hp) hne
      · rw [if_neg (by simpa using hp)]
        exact List.mem_cons.mpr (Or.inl hh)
    · unfold setEntry
      by_cases hp : p.1 = k0
      · rw [if_pos (by simpa using hp)]
        exact List.mem_cons.mpr (Or.inr ht)
      · rw [if_neg (by simpa using hp)]
        exact List.mem_cons.mpr (Or.inr (ih ht))

theorem mem_buildMetadata {md : Option (List (String × String))}
    {k v : String} (originalName : Option String) (uploadTime : String)
    (hk1 : k ≠ "original-name") (hk2 : k ≠ "upload-time")
    (h : (k, v) ∈ md.getD []) :
    (k, v) ∈ buildMetadata md originalName uploadTime := by
  simp only [buildMetadata]
  by_cases ht : jsTruthy originalName = true
  · rw [if_pos ht]
    exact mem_setEntry_of_ne hk2 (mem_setEntry_of_ne hk1 h)
  · rw [if_neg ht]
    exact mem_setEntry_of_ne hk2 h

theorem uploadBuffer_error_eq (c : Image2UrlClient) (env : Env)
    (data : List Nat) (opts : UploadOptions) {e : String}
    (h0 : ¬ data.length = 0) (h1 : ¬ data.length > c.maxSize)
    (he : ensureImageContentType (resolvedContentType opts) = Except.error e) :
    c.uploadBuffer env data opts = (Except.error e, []) := by
  unfold Image2UrlClient.uploadBuffer toBuffer
  rw [if_neg h0, if_neg (by simpa using h1)]
  unfold Image2UrlClient.uploadBufferChecked
  rw [he]

/-! ## Claim theorems -/

/-- Claim C3: a zero-length payload makes `uploadBuffer` throw
`Cannot upload an empty file.` without any remote call, and the same holds
for the delegating entry points `uploadFile` (on an empty file) and
`uploadBase64` (on an input whose decoded buffer is empty). -/
theorem c3_empty_rejected (c : Image2UrlClient) (env : Env) (data : List Nat)
    (opts : UploadOptions) (s filePath : String) (fileBytes : List Nat) :
    (data.length = 0 →
      c.uploadBuffer env data opts = (Except.error emptyFileMsg, [])) ∧
    (fileBytes.length = 0 →
      c.uploadFile env filePath true fileBytes opts =
        (Except.error emptyFileMsg, [])) ∧
    ((decodeBase64 s).buffer.length = 0 →
      c.uploadBase64 env s opts = (Except.error emptyFileMsg, [])) := by
  refine ⟨?_, ?_, ?_⟩
  · intro h
    unfold Image2UrlClient.uploadBuffer toBuffer
    rw [if_pos h]
  · intro h
    simp [Image2UrlClient.uploadFile, Image2UrlClient.uploadBuffer, toBuffer, h]
  · intro h
    simp [Image2UrlClient.uploadBase64, Image2UrlClient.uploadBuffer, toBuffer, h]

/-- Claim C3 witness at concrete inputs. -/
theorem c3_empty_rejected_witness :
    cEx.uploadBuffer envEx [] optsNone = (Except.error emptyFileMsg, []) ∧
    cEx.uploadFile envEx "/tmp/empty.png" true [] optsNone =
      (Except.error emptyFileMsg, []) ∧
    cEx.uploadBase64 envEx "" optsNone = (Except.error emptyFileMsg, []) :=
  ⟨(c3_empty_rejected cEx envEx [] optsNone "" "/tmp/empty.png" []).1 rfl,
   (c3_empty_rejected cEx envEx [] optsNone "" "/tmp/empty.png" []).2.1 rfl,
   (c3_empty_rejected cEx envEx [] optsNone "" "/tmp/empty.png" []).2.2 rfl⟩

/-- Claim C10: whenever `uploadBuffer` fails (with any error), the trace of
remote put-object calls is empty: every validation happens before the single
`send`, so a failed validation leaves the remote store unchanged. -/
theorem c10_no_put_on_error (c : Image2UrlClient) (env : Env) (data : List Nat)
    (opts : UploadOptions) (e : String)
    (h : (c.uploadBuffer env data opts).fst = Except.error e) :
    (c.uploadBuffer env data opts).snd = [] := by
  by_cases h0 : data.length = 0
  · simp [Image2UrlClient.uploadBuffer, toBuffer, h0]
  · by_cases h1 : data.length > c.maxSize
    · simp [Image2UrlClient.uploadBuffer, toBuffer, h0, h1]
    · by_cases hs : strStartsWith (resolvedContentType opts) "image/" = true
      · rw [uploadBuffer_ok_eq c env data opts h0 h1 hs] at h
        exact absurd h (by simp)
      · obtain ⟨e2, he⟩ := ensureImageContentType_error_of_not hs
        rw [uploadBuffer_error_eq c env data opts h0 h1 he]

/-- Claim C10 witness at a concrete failing input. -/
theorem c10_no_put_on_error_witness :
    (cEx.uploadBuffer envEx [] optsNone).fst = Except.error emptyFileMsg ∧
    (cEx.uploadBuffer envEx [] optsNone).snd = [] :=
  ⟨rfl, c10_no_put_on_error cEx envEx [] optsNone emptyFileMsg rfl⟩

/-- Claim C2: a buffer strictly larger than the configured ceiling is
rejected with the size-limit error and no remote call; a non-empty buffer
within the ceiling passes both size guards (execution continues with the
content-type stage); and a client built without `maxSizeBytes` gets the
default ceiling of `2 * 1024 * 1024` bytes. -/
theorem c2_size_limit (cfg : Image2UrlConfig) (c c2 : Image2UrlClient)
    (env : Env) (data : List Nat) (opts : UploadOptions) :
    (data.length > c.maxSize →
      c.uploadBuffer env data opts =
        (Except.error (sizeLimitMsg c.maxSize), [])) ∧
    (0 < data.length → data.length ≤ c.maxSize →
      c.uploadBuffer env data opts = c.uploadBufferChecked env data opts) ∧
    (mkClient cfg = Except.ok c2 → cfg.maxSizeBytes = none →
      c2.maxSize = 2 * 1024 * 1024) := by
  refine ⟨?_, ?_, ?_⟩
  · intro hgt
    have h0 : ¬ data.length = 0 := by omega
    unfold Image2UrlClient.uploadBuffer toBuffer
    rw [if_neg h0, if_pos hgt]
  · intro hpos hle
    have h0 : ¬ data.length = 0 := by omega
    have h1 : ¬ data.length > c.maxSize := by omega
    unfold Image2UrlClient.uploadBuffer toBuffer
    rw [if_neg h0, if_neg h1]
  · intro hc hnone
    obtain ⟨-, -, hcc⟩ := mkClient_ok hc
    rw [hcc]
    simp [hnone, DEFAULT_MAX_SIZE]

/-- Claim C2 witness: a 5-byte buffer against a 4-byte ceiling, and the
default ceiling of the client built from `cfgEx`. -/
theorem c2_size_limit_witness :
    ([1, 2, 3, 4, 5] : List Nat).length > cSmall.maxSize ∧
    cSmall.uploadBuffer envEx [1, 2, 3, 4, 5] optsNone =
      (Except.error (sizeLimitMsg cSmall.maxSize), []) ∧
    cEx.maxSize = 2 * 1024 * 1024 :=
  ⟨by decide,
   (c2_size_limit cfgEx cSmall cEx envEx [1, 2, 3, 4, 5] optsNone).1
     (by decide),
   (c2_size_limit cfgEx cSmall cEx envEx [1, 2, 3, 4, 5] optsNone).2.2
     rfl rfl⟩

/-- Claim C1: for a payload passing the empty and size checks, if the
resolved content type (explicit `contentType`, else the MIME inferred from
the filename extension, else the `image/jpeg` fallback) does not start with
`image/` then `uploadBuffer` throws and sends nothing, and if it does start
with `image/` then exactly that string is the `ContentType` of the stored
object and of the result.  `uploadFile` and `uploadBase64` delegate to
`uploadBuffer`, so the same gate governs them. -/
theorem c1_content_type_gate (c : Image2UrlClient) (env : Env)
    (data fileBytes : List Nat) (opts : UploadOptions) (s filePath : String)
    (h0 : 0 < data.length) (h1 : data.length ≤ c.maxSize) :
    (¬ strStartsWith (resolvedContentType opts) "image/" = true →
      (∃ e, (c.uploadBuffer env data opts).fst = Except.error e) ∧
      (c.uploadBuffer env data opts).snd = []) ∧
    (strStartsWith (resolvedContentType opts) "image/" = true →
      (c.uploadBuffer env data opts).snd.map PutObjectCommand.ContentType =
        [resolvedContentType opts] ∧
      ∃ r, (c.uploadBuffer env data opts).fst = Except.ok r ∧
        r.type = resolvedContentType opts) ∧
    (c.uploadFile env filePath true fileBytes opts =
      c.uploadBuffer env fileBytes
        { opts with
          originalName := some ((opts.originalName).getD (basename filePath)),
          contentType := (opts.contentType).orElse
            (fun _ => guessContentType
              (some ((opts.originalName).getD (basename filePath)))) }) ∧
    (c.uploadBase64 env s opts =
      c.uploadBuffer env (decodeBase64 s).buffer
        { opts with
          originalName := (opts.originalName).orElse
            (fun _ => (decodeBase64 s).originalName),
          contentType := (opts.contentType).orElse
            (fun _ => (decodeBase64 s).contentType) }) := by
  have h0n : ¬ data.length = 0 := by omega
  have h1n : ¬ data.length > c.maxSize := by omega
  refine ⟨?_, ?_, ?_, ?_⟩
  · intro hns
    obtain ⟨e, he⟩ := ensureImageContentType_error_of_not hns
    rw [uploadBuffer_error_eq c env data opts h0n h1n he]
    exact ⟨⟨e, rfl⟩, rfl⟩
  · intro hs
    rw [uploadBuffer_ok_eq c env data opts h0n h1n hs]
    exact ⟨rfl, ⟨_, rfl, rfl⟩⟩
  · rfl
  · rfl

/-- Claim C1 witness: an `image/png` upload is stored with that content
type, and an `application/pdf` upload sends nothing. -/
theorem c1_content_type_gate_witness :
    ((cEx.uploadBuffer envEx [7] optsPng).snd.map PutObjectCommand.ContentType =
      [resolvedContentType optsPng]) ∧
    (cEx.uploadBuffer envEx [7] optsPdf).snd = [] :=
  ⟨((c1_content_type_gate cEx envEx [7] [] optsPng "" "" (by decide)
      (by decide)).2.1 (by decide)).1,
   ((c1_content_type_gate cEx envEx [7] [] optsPdf "" "" (by decide)
      (by decide)).1 (by decide)).2⟩

theorem string_empty_append (s : String) : "" ++ s = s := rfl

/-- Options supplying only an original filename. -/
def optsName : UploadOptions := { originalName := some "Photo.PNG" }

/-- Options with a blank (single space) caller key. -/
def optsBlankKey : UploadOptions :=
  { key := some " ", contentType := some "image/png" }

/-- Options with a leading-slash caller key. -/
def optsKeyed : UploadOptions :=
  { key := some "/photos/x.png", contentType := some "image/png" }

/-- The result of `cEx.uploadBuffer envEx [9] optsName`. -/
def rC4 : UploadResult :=
  { url := "https://cdn.example.com/images/1700-u1.png",
    key := "images/1700-u1.png", bucket := "pics", size := 1,
    type := "image/png", etag := some "etag-1" }

/-- The result of `cEx.uploadBuffer envEx [1] optsKeyed`. -/
def rC5 : UploadResult :=
  { url := "https://cdn.example.com/photos/x.png", key := "photos/x.png",
    bucket := "pics", size := 1, type := "image/png", etag := some "etag-1" }

/-- The result of `cEx.uploadBuffer envEx [1] optsBlankKey`. -/
def rC5blank : UploadResult :=
  { url := "https://cdn.example.com/images/1700-u1.png",
    key := "images/1700-u1.png", bucket := "pics", size := 1,
    type := "image/png", etag := some "etag-1" }

/-- The result of `cEx.uploadBuffer envEx [1, 2] optsPng`. -/
def rC6 : UploadResult :=
  { url := "https://cdn.example.com/images/1700-u1.png",
    key := "images/1700-u1.png", bucket := "pics", size := 2,
    type := "image/png", etag := some "etag-1" }

/-- The extension claim C4 describes: the extension of the original filename
(first dot removed, lowercased) when the filename has one, otherwise the
`EXT_BY_MIME` entry of the resolved content type, otherwise `jpg`. -/
def specC4Ext (opts : UploadOptions) : String :=
  let nameExt : String :=
    if jsTruthy opts.originalName then
      strToLower (String.mk
        (removeFirstDot (extname ((opts.originalName).getD "")).data))
    else ""
  if nameExt ≠ "" then nameExt
  else (lookupTable EXT_BY_MIME (resolvedContentType opts)).getD "jpg"

/-- The generated-key shape claim C4 describes:
`<prefix>/<unix-millis>-<random-id>.<ext>`, the prefix part omitted when the
configured prefix is empty. -/
def specC4Key (c : Image2UrlClient) (env : Env) (opts : UploadOptions) :
    String :=
  (if c.keyPrefix = "" then "" else c.keyPrefix ++ "/") ++
    (toString env.now ++ "-" ++ env.uuid ++ "." ++ specC4Ext opts)

theorem specC4Ext_eq (opts : UploadOptions) :
    (guessExtension opts.originalName (resolvedContentType opts)).getD "jpg" =
      specC4Ext opts := by
  simp only [guessExtension, specC4Ext]
  by_cases hn :
      (if jsTruthy opts.originalName = true then
        strToLower (String.mk
          (removeFirstDot (extname ((opts.originalName).getD "")).data))
      else "") = ""
  · rw [hn]
    simp
  · rw [if_pos hn, if_pos hn]
    simp

/-- Claim C4: when the caller supplies no key, the key of a successful
upload is `<prefix>/<unix-millis>-<random-id>.<ext>` (prefix part omitted
when the configured prefix is empty), `<ext>` being the lowercased
extension of the original filename when it has one, else the
`EXT_BY_MIME` entry of the resolved content type, else `jpg`. -/
theorem c4_generated_key (c : Image2UrlClient) (env : Env) (data : List Nat)
    (opts : UploadOptions) (r : UploadResult)
    (hk : opts.key = none)
    (h : (c.uploadBuffer env data opts).fst = Except.ok r) :
    r.key = specC4Key c env opts := by
  have hr := uploadBuffer_ok_result h
  subst hr
  show c.buildKey env opts.key opts.originalName (resolvedContentType opts) =
    specC4Key c env opts
  rw [hk]
  simp only [Image2UrlClient.buildKey]
  rw [if_neg (by simp [jsTruthy])]
  rw [specC4Ext_eq]
  unfold specC4Key
  by_cases hp : c.keyPrefix = ""
  · simp [hp, string_empty_append]
  · simp [hp]

/-- Claim C4 witness: upload with original name `Photo.PNG` and no key. -/
theorem c4_generated_key_witness :
    (cEx.uploadBuffer envEx [9] optsName).fst = Except.ok rC4 ∧
    rC4.key = specC4Key cEx envEx optsName :=
  ⟨rfl, c4_generated_key cEx envEx [9] optsName rC4 rfl rfl⟩

/-- Claim C5 (amended): a caller-supplied key that is non-empty and not
blank is used verbatim after `normalizeKey`, both in the result and in the
stored object; nothing is prepended to it. -/
theorem c5_caller_key (c : Image2UrlClient) (env : Env) (data : List Nat)
    (opts : UploadOptions) (k : String) (r : UploadResult)
    (hk : opts.key = some k) (hne : k ≠ "") (ht : 0 < (jsTrim k).length)
    (h : (c.uploadBuffer env data opts).fst = Except.ok r) :
    r.key = normalizeKey k ∧
    (c.uploadBuffer env data opts).snd.map PutObjectCommand.Key =
      [normalizeKey k] := by
  obtain ⟨h0, h1, hs⟩ := uploadBuffer_ok_inv h
  have heq := uploadBuffer_ok_eq c env data opts h0 h1 hs
  have hkey : c.buildKey env opts.key opts.originalName
      (resolvedContentType opts) = normalizeKey k := by
    rw [hk]
    unfold Image2UrlClient.buildKey
    rw [if_pos ⟨by simp [jsTruthy, hne], by simpa using ht⟩]
    rfl
  constructor
  · have hr := uploadBuffer_ok_result h
    subst hr
    exact hkey
  · rw [heq]
    simp [hkey]

/-- Claim C5 witness: key `/photos/x.png` is normalized and used as is. -/
theorem c5_caller_key_witness :
    rC5.key = normalizeKey "/photos/x.png" ∧
    (cEx.uploadBuffer envEx [1] optsKeyed).snd.map PutObjectCommand.Key =
      [normalizeKey "/photos/x.png"] :=
  c5_caller_key cEx envEx [1] optsKeyed "/photos/x.png" rC5 rfl (by decide)
    (by decide) rfl

/-- Claim C5 counterexample: the caller-supplied key `" "` (present but
blank) is ignored and a prefixed, timestamped generated key is used
instead, so a supplied key is not always used verbatim. -/
theorem c5_caller_key_counterexample :
    optsBlankKey.key = some " " ∧
    (cEx.uploadBuffer envEx [1] optsBlankKey).fst = Except.ok rC5blank ∧
    rC5blank.key ≠ normalizeKey " " :=
  ⟨rfl, rfl, by decide⟩

/-- Claim C6: a successful upload returns the public URL built from the
configured base (trailing slashes removed) and the key (leading slashes
removed), the stored key, the configured bucket, the byte length, the
resolved content type, and the `ETag` of the storage response when
present. -/
theorem c6_result_fields (cfg : Image2UrlConfig) (c : Image2UrlClient)
    (env : Env) (data : List Nat) (opts : UploadOptions) (r : UploadResult)
    (hc : mkClient cfg = Except.ok c)
    (h : (c.uploadBuffer env data opts).fst = Except.ok r) :
    r.url = trimTrailingSlash cfg.publicUrl ++ "/" ++
      stripLeadingSlashes r.key ∧
    (c.uploadBuffer env data opts).snd.map PutObjectCommand.Key = [r.key] ∧
    r.bucket = cfg.bucket ∧
    r.size = data.length ∧
    r.type = resolvedContentType opts ∧
    r.etag = env.etag := by
  obtain ⟨h0, h1, hs⟩ := uploadBuffer_ok_inv h
  have heq := uploadBuffer_ok_eq c env data opts h0 h1 hs
  obtain ⟨-, -, hcc⟩ := mkClient_ok hc
  have hr := uploadBuffer_ok_result h
  subst hr
  refine ⟨?_, ?_, ?_, rfl, rfl, rfl⟩
  · show buildPublicUrl c.publicUrl
        (c.buildKey env opts.key opts.originalName (resolvedContentType opts)) =
      trimTrailingSlash cfg.publicUrl ++ "/" ++
        stripLeadingSlashes
          (c.buildKey env opts.key opts.originalName (resolvedContentType opts))
    have hpu : c.publicUrl = trimTrailingSlash cfg.publicUrl := by rw [hcc]
    unfold buildPublicUrl
    rw [hpu, trimTrailingSlash_idem]
  · rw [heq]
    rfl
  · show c.bucket = cfg.bucket
    rw [hcc]

/-- Claim C6 witness at a concrete successful upload. -/
theorem c6_result_fields_witness :
    rC6.url = trimTrailingSlash cfgEx.publicUrl ++ "/" ++
      stripLeadingSlashes rC6.key ∧
    (cEx.uploadBuffer envEx [1, 2] optsPng).snd.map PutObjectCommand.Key =
      [rC6.key] ∧
    rC6.bucket = cfgEx.bucket ∧
    rC6.size = ([1, 2] : List Nat).length ∧
    rC6.type = resolvedContentType optsPng ∧
    rC6.etag = envEx.etag :=
  c6_result_fields cfgEx cEx envEx [1, 2] optsPng rC6 rfl rfl

theorem buildMetadata_lookup_originalName
    (md : Option (List (String × String))) (o : Option String) (t : String)
    (ht : jsTruthy o = true) :
    lookupEntry (buildMetadata md o t) "original-name" = some (o.getD "") := by
  simp only [buildMetadata]
  rw [if_pos ht]
  rw [lookupEntry_setEntry_ne _ _ _ _ (by decide)]
  exact lookupEntry_setEntry_self _ _ _

theorem buildMetadata_lookup_uploadTime
    (md : Option (List (String × String))) (o : Option String) (t : String) :
    lookupEntry (buildMetadata md o t) "upload-time" = some t := by
  simp only [buildMetadata]
  by_cases ht : jsTruthy o = true
  · rw [if_pos ht]
    exact lookupEntry_setEntry_self _ _ _
  · rw [if_neg ht]
    exact lookupEntry_setEntry_self _ _ _

/-- Options with caller metadata that does not clash with the fixed keys. -/
def optsMetaW : UploadOptions :=
  { originalName := some "cat.png", contentType := some "image/png",
    metadata := some [("album", "pets")] }

/-- Options with caller metadata clashing with `original-name`. -/
def optsMetaClash : UploadOptions :=
  { originalName := some "real.png", contentType := some "image/png",
    metadata := some [("original-name", "caller.png")] }

/-- The result of `cEx.uploadBuffer envEx [3] optsMetaW`. -/
def rC8 : UploadResult :=
  { url := "https://cdn.example.com/images/1700-u1.png",
    key := "images/1700-u1.png", bucket := "pics", size := 1,
    type := "image/png", etag := some "etag-1" }

/-- Claim C8 (amended): a successful upload sends exactly one put-object
command; it carries the configured cache-control header (which defaults to
`public, max-age=31536000` when the config field is absent) and a metadata
map holding every caller-supplied pair whose key is neither `original-name`
nor `upload-time`, an `original-name` entry equal to the original filename
when one is known (overriding any caller-supplied value for that key), and
an `upload-time` entry (likewise overriding). -/
theorem c8_put_command (cfg : Image2UrlConfig) (c : Image2UrlClient)
    (env : Env) (data : List Nat) (opts : UploadOptions) (r : UploadResult)
    (h : (c.uploadBuffer env data opts).fst = Except.ok r) :
    ∃ cmd, (c.uploadBuffer env data opts).snd = [cmd] ∧
      cmd.CacheControl = c.cacheControl ∧
      (∀ k v, k ≠ "original-name" → k ≠ "upload-time" →
        (k, v) ∈ (opts.metadata).getD [] → (k, v) ∈ cmd.Metadata) ∧
      (jsTruthy opts.originalName = true →
        lookupEntry cmd.Metadata "original-name" =
          some ((opts.originalName).getD "")) ∧
      lookupEntry cmd.Metadata "upload-time" = some env.uploadTime ∧
      (mkClient cfg = Except.ok c → cfg.cacheControl = none →
        cmd.CacheControl = DEFAULT_CACHE_CONTROL) := by
  obtain ⟨h0, h1, hs⟩ := uploadBuffer_ok_inv h
  have heq := uploadBuffer_ok_eq c env data opts h0 h1 hs
  refine ⟨{ Bucket := c.bucket,
            Key := c.buildKey env opts.key opts.originalName
              (resolvedContentType opts),
            Body := data, ContentType := resolvedContentType opts,
            ContentLength := data.length, CacheControl := c.cacheControl,
            Metadata := buildMetadata opts.metadata opts.originalName
              env.uploadTime },
         by rw [heq], rfl, ?_, ?_, ?_, ?_⟩
  · intro k v hk1 hk2 hm
    exact mem_buildMetadata opts.originalName env.uploadTime hk1 hk2 hm
  · intro ht
    exact buildMetadata_lookup_originalName _ _ _ ht
  · exact buildMetadata_lookup_uploadTime _ _ _
  · intro hc hnone
    obtain ⟨-, -, hcc⟩ := mkClient_ok hc
    show c.cacheControl = DEFAULT_CACHE_CONTROL
    rw [hcc]
    simp [hnone]

/-- Claim C8 witness at a concrete successful upload. -/
theorem c8_put_command_witness :
    ∃ cmd, (cEx.uploadBuffer envEx [3] optsMetaW).snd = [cmd] ∧
      cmd.CacheControl = cEx.cacheControl ∧
      (∀ k v, k ≠ "original-name" → k ≠ "upload-time" →
        (k, v) ∈ (optsMetaW.metadata).getD [] → (k, v) ∈ cmd.Metadata) ∧
      (jsTruthy optsMetaW.originalName = true →
        lookupEntry cmd.Metadata "original-name" =
          some ((optsMetaW.originalName).getD "")) ∧
      lookupEntry cmd.Metadata "upload-time" = some envEx.uploadTime ∧
      (mkClient cfgEx = Except.ok cEx → cfgEx.cacheControl = none →
        cmd.CacheControl = DEFAULT_CACHE_CONTROL) :=
  c8_put_command cfgEx cEx envEx [3] optsMetaW rC8 rfl

/-- Claim C8 counterexample: the caller-supplied metadata pair
`original-name = caller.png` is overwritten by the original filename, so
the sent metadata does not contain every caller-supplied pair. -/
theorem c8_put_command_counterexample :
    ((cEx.uploadBuffer envEx [1] optsMetaClash).snd.map
      PutObjectCommand.Metadata =
      [[("original-name", "real.png"),
        ("upload-time", "2024-01-01T00:00:00.000Z")]]) ∧
    ("original-name", "caller.png") ∉
      ([("original-name", "real.png"),
        ("upload-time", "2024-01-01T00:00:00.000Z")] :
        List (String × String)) :=
  ⟨rfl, by decide⟩

/-- Claim C9 (amended): when the caller supplies no `contentType` the
resolved content type is never empty, so the `Unable to determine content
type` branch of `ensureImageContentType` is not taken (that branch remains
reachable only for an explicitly supplied empty string); when additionally
nothing can be inferred from the filename, the type resolves to
`image/jpeg` and a valid-size upload proceeds. -/
theorem c9_content_type_default (c : Image2UrlClient) (env : Env)
    (data : List Nat) (opts : UploadOptions)
    (hct : opts.contentType = none) :
    resolvedContentType opts ≠ "" ∧
    ensureImageContentType (resolvedContentType opts) =
      (if strStartsWith (resolvedContentType opts) "image/" = true then
        Except.ok (resolvedContentType opts)
      else Except.error (onlyImageMsg (resolvedContentType opts))) ∧
    (guessContentType opts.originalName = none →
      resolvedContentType opts = "image/jpeg" ∧
      (0 < data.length → data.length ≤ c.maxSize →
        ∃ r, (c.uploadBuffer env data opts).fst = Except.ok r ∧
          r.type = "image/jpeg")) := by
  have hres : resolvedContentType opts =
      (guessContentType opts.originalName).getD "image/jpeg" := by
    unfold resolvedContentType
    rw [hct]
    rfl
  have hne : resolvedContentType opts ≠ "" := by
    rw [hres]
    cases hg : guessContentType opts.originalName with
    | none => decide
    | some m => simpa using guessContentType_ne_empty hg
  refine ⟨hne, ?_, ?_⟩
  · unfold ensureImageContentType
    rw [if_neg hne]
    by_cases hsw : strStartsWith (resolvedContentType opts) "image/" = true
    · rw [if_neg (by simp [hsw]), if_pos hsw]
    · rw [if_pos (by simp [hsw]), if_neg hsw]
  · intro hg
    have h39 : resolvedContentType opts = "image/jpeg" := by
      rw [hres, hg]
      rfl
    refine ⟨h39, ?_⟩
    intro hpos hle
    have heq := uploadBuffer_ok_eq c env data opts (by omega) (by omega)
      (by rw [h39]; decide)
    refine ⟨{ url := buildPublicUrl c.publicUrl
                (c.buildKey env opts.key opts.originalName
                  (resolvedContentType opts)),
              key := c.buildKey env opts.key opts.originalName
                (resolvedContentType opts),
              bucket := c.bucket, size := data.length,
              type := resolvedContentType opts, etag := env.etag }, ?_, ?_⟩
    · rw [heq]
    · exact h39

/-- Claim C9 witness: no content type, no filename, 5-byte payload. -/
theorem c9_content_type_default_witness :
    resolvedContentType optsNone = "image/jpeg" ∧
    (∃ r, (cEx.uploadBuffer envEx [5] optsNone).fst = Except.ok r ∧
      r.type = "image/jpeg") :=
  ⟨((c9_content_type_default cEx envEx [5] optsNone rfl).2.2 rfl).1,
   ((c9_content_type_default cEx envEx [5] optsNone rfl).2.2 rfl).2
     (by decide) (by decide)⟩

/-- Options supplying the empty string as content type. -/
def optsEmptyCt : UploadOptions := { contentType := some "" }

/-- Claim C9 counterexample: the `Unable to determine content type` branch
of `ensureImageContentType` is reachable from `uploadBuffer`, namely when
the caller passes the empty string as `contentType` (nullish coalescing
does not replace an empty string). -/
theorem c9_content_type_default_counterexample :
    (cEx.uploadBuffer envEx [7] optsEmptyCt).fst = Except.error unableMsg ∧
    (cEx.uploadBuffer envEx [7] optsEmptyCt).snd = [] :=
  ⟨rfl, rfl⟩

/-- Claim C7 (amended): base64 decoding is lenient and never fails by
itself; when the decode of the input yields an empty buffer the upload
fails synchronously with the empty-file validation error and no remote
call is made; when it is non-empty and passes the size and content-type
checks, the single remote call stores exactly the decoded bytes. -/
theorem c7_lenient_base64 (c : Image2UrlClient) (env : Env) (s : String)
    (opts : UploadOptions) :
    ((decodeBase64 s).buffer = [] →
      c.uploadBase64 env s opts = (Except.error emptyFileMsg, [])) ∧
    (¬ (decodeBase64 s).buffer = [] →
      ¬ (decodeBase64 s).buffer.length > c.maxSize →
      strStartsWith
        (resolvedContentType
          { opts with
            originalName := (opts.originalName).orElse
              (fun _ => (decodeBase64 s).originalName),
            contentType := (opts.contentType).orElse
              (fun _ => (decodeBase64 s).contentType) })
        "image/" = true →
      (c.uploadBase64 env s opts).snd.map PutObjectCommand.Body =
        [(decodeBase64 s).buffer]) := by
  constructor
  · intro h
    unfold Image2UrlClient.uploadBase64
    simp [Image2UrlClient.uploadBuffer, toBuffer, h]
  · intro hne hsize hs
    have h0 : ¬ (decodeBase64 s).buffer.length = 0 := by
      intro h00
      exact hne (List.length_eq_zero.mp h00)
    have heq := uploadBuffer_ok_eq c env (decodeBase64 s).buffer
      { opts with
        originalName := (opts.originalName).orElse
          (fun _ => (decodeBase64 s).originalName),
        contentType := (opts.contentType).orElse
          (fun _ => (decodeBase64 s).contentType) }
      h0 hsize hs
    show (c.uploadBuffer env (decodeBase64 s).buffer
      { opts with
        originalName := (opts.originalName).orElse
          (fun _ => (decodeBase64 s).originalName),
        contentType := (opts.contentType).orElse
          (fun _ => (decodeBase64 s).contentType) }).snd.map
        PutObjectCommand.Body = [(decodeBase64 s).buffer]
    rw [heq]
    rfl

/-- Claim C7 witness: `!!!` has no base64 characters, decodes to the empty
buffer, and fails before any remote call; `QQ==QQ==` decodes to the single
byte 65 (decoding stops at the first `=`), which is stored by one put
call. -/
theorem c7_lenient_base64_witness :
    ((decodeBase64 "!!!").buffer = [] ∧
      cEx.uploadBase64 envEx "!!!" optsNone =
        (Except.error emptyFileMsg, [])) ∧
    (cEx.uploadBase64 envEx "QQ==QQ==" optsNone).snd.map
      PutObjectCommand.Body = [(decodeBase64 "QQ==QQ==").buffer] :=
  ⟨⟨rfl, (c7_lenient_base64 cEx envEx "!!!" optsNone).1 rfl⟩,
   (c7_lenient_base64 cEx envEx "QQ==QQ==" optsNone).2 (by decide) (by decide)
     (by decide)⟩

/-- Claim C7 counterexample: `????ABCD` is neither a data URI nor valid
strict base64, yet `uploadBase64` does not fail with any validation error:
the lenient decode keeps `ABCD` (three bytes) and one remote put-object
call is made. -/
theorem c7_lenient_base64_counterexample :
    specValidBase64 "????ABCD" = false ∧
    matchDataUri (jsTrim "????ABCD") = none ∧
    (cEx.uploadBase64 envEx "????ABCD" optsNone).snd.length = 1 :=
  ⟨rfl, rfl, rfl⟩
